import Mathlib

/-!
# Verification of the law-search-service core

Shallow embedding of the retrieval/storage core of the Klaro-Works
law-search-service repository: the lexical scoring engine and snippet
extraction (`src/main.py`), the multi-term query aggregators
(`src/main.py::_db_search_laws`, `src/pipeline/collectors/law_collector.py::search_law`),
the tiered search orchestrator (`src/main.py::law_search`), the in-memory
cache (`src/core/in_memory_cache.py`) and the vector-store backends
(`src/core/in_memory_store.py`, `src/core/file_system_store.py`,
`src/core/qdrant_store.py`).

Python floats are modelled exactly: lexical scores as rationals, vector
scores (which go through a square root) as reals.  Python strings are
modelled as `String`/`List Char`; `str.lower` is ASCII lowering
(the Korean payloads are unaffected by case mapping).  Stateful objects
become explicit state passing; external collaborators (the SQL database,
the remote law.go.kr source, the Qdrant client) become oracle parameters.
-/

namespace LawSearch

/-! ## Python string primitives -/

/-- `str.lower` on the character list (ASCII case mapping). -/
def lowerL (l : List Char) : List Char := l.map Char.toLower

/-- Python whitespace test used by `str.strip`, `str.split` and `\s`. -/
def isWs (c : Char) : Bool := c.isWhitespace

/-- `str.strip()`: drop leading and trailing whitespace. -/
def stripL (l : List Char) : List Char :=
  ((l.dropWhile isWs).reverse.dropWhile isWs).reverse

/-- `str.strip()` packaged on `String`. -/
def pyStrip (s : String) : String := ⟨stripL s.data⟩

/-- Helper of `splitWsL`: accumulates the current (reversed) token. -/
def splitWsAux : List Char → List Char → List (List Char)
  | [], acc => if acc.isEmpty then [] else [acc.reverse]
  | c :: cs, acc =>
    if isWs c then
      if acc.isEmpty then splitWsAux cs [] else acc.reverse :: splitWsAux cs []
    else splitWsAux cs (c :: acc)

/-- `re.split(r"\s+", s)` with empty pieces removed — equivalently Python's
`s.split()`: the maximal whitespace-free runs of `s`. -/
def splitWsL (l : List Char) : List (List Char) := splitWsAux l []

/-! ## Lexical scoring

`_lexical_score` from `src/main.py` (exact rational arithmetic: the float
constants 0.8 and 0.2 are the rationals 4/5 and 1/5). -/

/-- `_lexical_score(text, query)` of `src/main.py`:
base 0.8 for whole-query containment, plus 0.2 scaled by the fraction of
query tokens found, clamped to [0, 1]; blank query scores 0. -/
def lexical_score (text query : String) : ℚ :=
  let q := lowerL (stripL query.data)
  if q = [] then 0
  else
    let t := lowerL text.data
    let base : ℚ := if q <:+: t then 4/5 else 0
    let tokens := splitWsL q
    let score : ℚ :=
      if tokens.isEmpty then base
      else base + 1/5 * ((tokens.countP (fun tok => decide (tok <:+: t)) : ℚ) / tokens.length)
    max 0 (min 1 score)

/-! ## The file-backed store's lexical scorer

`FileSystemVectorStore._lexical_search` scores a document from the lowered
searchable text `f"{doc.content} {json.dumps(doc.metadata)}"`. -/

/-- A stored document (`VectorDocument` of `src/core/vector_store.py`);
metadata is a string-keyed mapping, kept in insertion order. -/
structure VectorDocument where
  id : String
  embedding : List ℝ
  content : String
  metadata : List (String × String)
  payload : Option (List (String × String)) := none

/-- `json.dumps` of a string-keyed dict with default separators
(quote escaping inside keys/values is not modelled). -/
def jsonDumps (m : List (String × String)) : String :=
  "\x7b" ++ String.intercalate ", " (m.map (fun kv => "\"" ++ kv.1 ++ "\": \"" ++ kv.2 ++ "\"")) ++ "\x7d"

/-- The searchable text of `_lexical_search`:
`f"{doc.content} {json.dumps(doc.metadata)}"`. -/
def fsSearchable (doc : VectorDocument) : String :=
  doc.content ++ " " ++ jsonDumps doc.metadata

/-- The score `_lexical_search` of `src/core/file_system_store.py` assigns to
one document: 0.8 for containment of the lowered query in the lowered
searchable text, plus 0.2/len(words) per query word found.  Note: the query
is lowered but NOT stripped, and there is no empty-query guard. -/
noncomputable def fsLexScore (searchable query : String) : ℝ :=
  let ql := lowerL query.data
  let t := lowerL searchable.data
  let base : ℝ := if ql <:+: t then 4/5 else 0
  let words := splitWsL ql
  words.foldl (fun s w => if w <:+: t then s + 1/5 / words.length else s) base

/-! ## Snippet extraction

`_make_snippet` from `src/main.py`. -/

/-- Python `text.find(sub)` on character lists: the least index of an
occurrence of `q` in `t`, or `none` (Python returns -1). -/
def strFind : (t q : List Char) → Option Nat
  | [], q => if q = [] then some 0 else none
  | t@(_ :: ts), q => if q <+: t then some 0 else (strFind ts q).map (· + 1)

/-- The token-fallback loop of `_make_snippet`: the first token of the list
found (case-insensitively) in `lt`, with its match index. -/
def firstTokenHit (lt : List Char) : List (List Char) → Option (Nat × List Char)
  | [] => none
  | tok :: rest =>
    match strFind lt (lowerL tok) with
    | some j => some (j, tok)
    | none => firstTokenHit lt rest

/-- The emphasis wrapper `f"<em>{highlight_target}</em>"` applied to a
target. -/
def emWrap (target : List Char) : List Char :=
  "<em>".data ++ target ++ "</em>".data

/-- A piece of a processed `re.sub` replacement template: a literal
character, or a reference to group 0 (the whole match). -/
inductive TmplPiece where
  | lit (c : Char)
  | group0
deriving DecidableEq

/-- Outcome of CPython's `sre_parse.parse_template` on a replacement, for
a pattern that (being `re.escape` output) has no capturing groups: a piece
list, an `re.error` (which `_make_snippet` catches), or an `IndexError`
from `\g<name>` with an unknown group name (which `_make_snippet` does
NOT catch). -/
inductive TmplResult where
  | ok (pieces : List TmplPiece)
  | reError
  | indexError
deriving DecidableEq

/-- Prepend a piece to a successful parse; errors pass through. -/
def consPiece (p : TmplPiece) : TmplResult → TmplResult
  | .ok ps => .ok (p :: ps)
  | r => r

/-- An ASCII letter (CPython's `ASCIILETTERS`). -/
def isAsciiLetter (c : Char) : Bool :=
  ('a' ≤ c && c ≤ 'z') || ('A' ≤ c && c ≤ 'Z')

/-- An ASCII octal digit. -/
def isOctDigit (c : Char) : Bool := '0' ≤ c && c ≤ '7'

/-- The numeric value of an ASCII digit. -/
def octVal (c : Char) : Nat := c.toNat - '0'.toNat

/-- The string escapes `parse_template` accepts in a replacement
(`\a \b \f \n \r \t \v \\` — e.g. `\b` becomes a backspace). -/
def replEscape (c : Char) : Option Char :=
  if c = 'a' then some (Char.ofNat 7)
  else if c = 'b' then some (Char.ofNat 8)
  else if c = 'f' then some (Char.ofNat 12)
  else if c = 'n' then some (Char.ofNat 10)
  else if c = 'r' then some (Char.ofNat 13)
  else if c = 't' then some (Char.ofNat 9)
  else if c = 'v' then some (Char.ofNat 11)
  else if c = '\\' then some '\\'
  else none

/-- An identifier-shaped `\g<name>` group name, for which CPython raises
`IndexError` ("unknown group name") rather than `re.error`.  Non-ASCII
characters are classified as identifier material here (CPython uses full
Unicode identifier rules); names CPython would reject as non-identifiers
but this test accepts land on `indexError`, which every theorem below
excludes — never the other way around. -/
def isNameLike (name : List Char) : Bool :=
  match name with
  | [] => false
  | c :: cs =>
    (isAsciiLetter c || c == '_' || 0x80 ≤ c.toNat) &&
      cs.all (fun d => isAsciiLetter d || d.isDigit || d == '_' || 0x80 ≤ d.toNat)

mutual

/-- `sre_parse.parse_template` for a pattern without groups, checked
against CPython 3.11: a trailing backslash, a group reference `\1`…`\99`,
a three-octal-digit escape above `\377`, an unknown ASCII-letter escape
(`\q`), and malformed `\g` uses raise `re.error`; `\g<0>` (any all-zero
digit run) inserts the whole match; `\0` with up to two further octal
digits and `\ooo` (three octal digits ≤ `\377`) are octal character
escapes; `\a \b \f \n \r \t \v \\` are string escapes; a backslash before
any other character stays literal.  The fuel (one unit per step, each step
consuming at least one character) only makes the recursion structural. -/
def parseTemplateAux : Nat → List Char → TmplResult
  | _, [] => .ok []
  | 0, _ :: _ => .reError
  | fuel + 1, c :: rest =>
    if c = '\\' then
      match rest with
      | [] => .reError
      | d :: rest' =>
        if d = 'g' then
          match rest' with
          | '<' :: rest'' => parseGroupName fuel [] rest''
          | _ => .reError
        else if d = '0' then
          match rest' with
          | e :: f :: rest'' =>
            if isOctDigit e then
              if isOctDigit f then
                consPiece (.lit (Char.ofNat (8 * octVal e + octVal f)))
                  (parseTemplateAux fuel rest'')
              else
                consPiece (.lit (Char.ofNat (octVal e))) (parseTemplateAux fuel (f :: rest''))
            else
              consPiece (.lit (Char.ofNat 0)) (parseTemplateAux fuel (e :: f :: rest''))
          | [e] =>
            if isOctDigit e then
              consPiece (.lit (Char.ofNat (octVal e))) (parseTemplateAux fuel [])
            else
              consPiece (.lit (Char.ofNat 0)) (parseTemplateAux fuel [e])
          | [] => consPiece (.lit (Char.ofNat 0)) (parseTemplateAux fuel [])
        else if d.isDigit then
          match rest' with
          | e :: f :: rest'' =>
            if e.isDigit then
              if isOctDigit d && isOctDigit e && isOctDigit f then
                if 64 * octVal d + 8 * octVal e + octVal f ≤ 255 then
                  consPiece (.lit (Char.ofNat (64 * octVal d + 8 * octVal e + octVal f)))
                    (parseTemplateAux fuel rest'')
                else .reError
              else .reError
            else .reError
          | _ => .reError
        else
          match replEscape d with
          | some e => consPiece (.lit e) (parseTemplateAux fuel rest')
          | none =>
            if isAsciiLetter d then .reError
            else consPiece (.lit '\\') (consPiece (.lit d) (parseTemplateAux fuel rest'))
    else consPiece (.lit c) (parseTemplateAux fuel rest)

/-- After `\g<`: accumulate the name up to `>`.  An empty or unterminated
name, a bad character, or a nonzero group number is `re.error`; an all-zero
ASCII digit run is group 0; an identifier-shaped name is the uncaught
`IndexError`.  (CPython's `int()` would also accept exotic non-ASCII digit
spellings of zero; those land on `indexError` here, i.e. outside every
theorem's scope.) -/
def parseGroupName : Nat → List Char → List Char → TmplResult
  | _, _, [] => .reError
  | 0, _, _ :: _ => .reError
  | fuel + 1, acc, c :: rest =>
    if c = '>' then
      let name := acc.reverse
      if name.isEmpty then .reError
      else if name.all (·.isDigit) then
        if name.all (· == '0') then consPiece .group0 (parseTemplateAux fuel rest)
        else .reError
      else if isNameLike name then .indexError
      else .reError
    else parseGroupName fuel (c :: acc) rest

end

/-- The processed replacement template of the `re.sub` call. -/
def parseTemplate (repl : List Char) : TmplResult := parseTemplateAux repl.length repl

/-- Fuel-driven core of the `re.sub` call: at each leftmost,
non-overlapping case-insensitive occurrence of `target` emit the processed
template — a `group0` piece emits the matched slice with its original
casing — and copy everything else.  The fuel only makes the recursion
structural. -/
def reSubAux (target : List Char) (tpl : List TmplPiece) : Nat → List Char → List Char
  | 0, s => s
  | _ + 1, [] => []
  | fuel + 1, c :: cs =>
    if lowerL ((c :: cs).take target.length) = lowerL target ∧ target ≠ [] then
      (tpl.flatMap (fun p => match p with
        | .lit ch => [ch]
        | .group0 => (c :: cs).take target.length)) ++
        reSubAux target tpl fuel ((c :: cs).drop target.length)
    else
      c :: reSubAux target tpl fuel cs

/-- The `try: snippet = re.sub(re.escape(target), f"<em>{target}</em>",
snippet, flags=re.IGNORECASE) except re.error: pass` block of
`_make_snippet`: a (caught) `re.error` in the replacement template leaves
the snippet unchanged; otherwise every case-insensitive occurrence is
substituted.  The `indexError` outcome is an exception the source does
NOT catch — the program propagates it instead of returning a value, so
that case is outside this value-level embedding (it is mapped to the
unchanged snippet here, and every theorem below excludes it by
hypothesis). -/
def reSubEm (s target : List Char) : List Char :=
  match parseTemplate (emWrap target) with
  | .ok tpl => reSubAux target tpl s.length s
  | .reError => s
  | .indexError => s

/-- The window slice `text[start:end]` of `_make_snippet`, with
`start = max(0, idx - window//2)` and
`end = min(len(text), idx + len(target) + window//2)`. -/
def snippetWindow (t target : List Char) (idx window : Nat) : List Char :=
  (t.drop (idx - window / 2)).take
    (min t.length (idx + target.length + window / 2) - (idx - window / 2))

/-- The no-match fallback of `_make_snippet`:
`(text[:window] + ("..." if len(text) > window else "")).strip()`. -/
def snippetFallback (t : List Char) (window : Nat) : List Char :=
  stripL (t.take window ++ if window < t.length then "...".data else [])

/-- `_make_snippet(text, query, window)` of `src/main.py`: locate the first
case-insensitive occurrence of the stripped query (or, failing that, of its
first individually-found token), cut the window
`text[max(0, idx - window//2) : min(len(text), idx + len(target) + window//2)]`,
emphasize the target inside it, and add edge ellipses; finally `str.strip`. -/
def make_snippet (text query : String) (window : Nat := 120) : String :=
  let t := text.data
  let q := stripL query.data
  if q = [] then ⟨snippetFallback t window⟩
  else
    let lt := lowerL t
    let hit := match strFind lt (lowerL q) with
      | some i => some (i, q)
      | none => firstTokenHit lt (splitWsL q)
    match hit with
    | none => ⟨snippetFallback t window⟩
    | some (idx, target) =>
      let start := idx - window / 2
      let stop := min t.length (idx + target.length + window / 2)
      let snip := reSubEm ((t.drop start).take (stop - start)) target
      let pre := if 0 < start then "...".data else []
      let suf := if stop < t.length then "...".data else []
      ⟨stripL (pre ++ snip ++ suf)⟩

/-! ## C4: bounds and blank-query behaviour of the lexical scorers -/

/-- A fold that conditionally adds a fixed nonnegative increment is bounded
below by its start and above by start plus one increment per element. -/
theorem foldl_cond_add_bounds (t : List Char) (c : ℝ) (hc : 0 ≤ c) :
    ∀ (l : List (List Char)) (init : ℝ),
      init ≤ l.foldl (fun s w => if w <:+: t then s + c else s) init ∧
      l.foldl (fun s w => if w <:+: t then s + c else s) init ≤ init + l.length * c := by
  intro l
  induction l with
  | nil => intro init; simp
  | cons w ws ih =>
    intro init
    by_cases hw : w <:+: t
    · have h := ih (init + c)
      simp only [List.foldl_cons, if_pos hw]
      constructor
      · exact le_trans (by linarith) h.1
      · refine le_trans h.2 (le_of_eq ?_)
        simp only [List.length_cons, Nat.cast_add, Nat.cast_one]
        ring
    · have h := ih init
      simp only [List.foldl_cons, if_neg hw]
      constructor
      · exact h.1
      · refine le_trans h.2 ?_
        simp only [List.length_cons, Nat.cast_add, Nat.cast_one]
        nlinarith [Nat.cast_nonneg (α := ℝ) ws.length]

/-- The base containment bonus of `fsLexScore` is between 0 and 4/5. -/
theorem fsLexScore_base_bounds (ql t : List Char) :
    0 ≤ (if ql <:+: t then (4/5 : ℝ) else 0) ∧
      (if ql <:+: t then (4/5 : ℝ) else 0) ≤ 4/5 := by
  by_cases h : ql <:+: t <;> simp [h] <;> norm_num

/-- The orchestrator's lexical score is nonnegative. -/
theorem lexical_score_nonneg (text query : String) : 0 ≤ lexical_score text query := by
  simp only [lexical_score]
  split
  · norm_num
  · exact le_max_left 0 _

/-- The orchestrator's lexical score is at most 1. -/
theorem lexical_score_le_one (text query : String) : lexical_score text query ≤ 1 := by
  simp only [lexical_score]
  split
  · norm_num
  · exact max_le (by norm_num) (min_le_left _ _)

/-- A blank query scores exactly 0 in the orchestrator's lexical scorer. -/
theorem lexical_score_blank (text query : String) (h : stripL query.data = []) :
    lexical_score text query = 0 := by
  simp [lexical_score, h, lowerL]

/-- The file-backed store's per-document lexical score lies in [0, 1]. -/
theorem fsLexScore_bounds (searchable query : String) :
    0 ≤ fsLexScore searchable query ∧ fsLexScore searchable query ≤ 1 := by
  have hb := fsLexScore_base_bounds (lowerL query.data) (lowerL searchable.data)
  have hc : (0:ℝ) ≤ 1/5 / ((splitWsL (lowerL query.data)).length : ℝ) := by positivity
  have h := foldl_cond_add_bounds (lowerL searchable.data) _ hc (splitWsL (lowerL query.data))
      (if lowerL query.data <:+: lowerL searchable.data then (4/5:ℝ) else 0)
  simp only [fsLexScore]
  constructor
  · exact le_trans hb.1 h.1
  · refine le_trans h.2 ?_
    rcases Nat.eq_zero_or_pos (splitWsL (lowerL query.data)).length with h0 | hpos
    · rw [h0]
      simp only [Nat.cast_zero, zero_mul, add_zero]
      linarith [hb.2]
    · have hne : ((splitWsL (lowerL query.data)).length : ℝ) ≠ 0 := by
        exact_mod_cast Nat.pos_iff_ne_zero.mp hpos
      have : ((splitWsL (lowerL query.data)).length : ℝ) * (1/5 / ((splitWsL (lowerL query.data)).length : ℝ)) = 1/5 := by
        field_simp
        ring
      rw [this]
      linarith [hb.2]

/-- **C4 (amended).**  For every text and query, the orchestrator's lexical
score `_lexical_score` lies in [0, 1], and a query that is empty or
whitespace-only scores exactly 0 there; the file-backed store's
per-document lexical score also lies in [0, 1] — but a blank query does
*not* score 0 in that variant (see the counterexample). -/
theorem claim4_lexical_bounds (text query searchable fsquery : String) :
    (0 ≤ lexical_score text query ∧ lexical_score text query ≤ 1) ∧
    (stripL query.data = [] → lexical_score text query = 0) ∧
    (0 ≤ fsLexScore searchable fsquery ∧ fsLexScore searchable fsquery ≤ 1) :=
  ⟨⟨lexical_score_nonneg text query, lexical_score_le_one text query⟩,
   lexical_score_blank text query,
   fsLexScore_bounds searchable fsquery⟩

/-- **C4 counterexample.**  In the file-backed store's lexical scorer the
empty query scores 0.8 (the containment base: the empty string is a
substring of every text), not 0. -/
theorem claim4_counterexample :
    fsLexScore "abc" "" = 4/5 ∧ fsLexScore "abc" "" ≠ 0 := by
  have h : fsLexScore "abc" "" = 4/5 := by
    simp [fsLexScore, lowerL, splitWsL, splitWsAux, List.nil_infix]
  exact ⟨h, by rw [h]; norm_num⟩

/-! ## C5: snippet-extraction lemmas -/

/-- `strFind` success gives a genuine occurrence: the needle is a prefix of
the haystack dropped at the found index, which is within bounds. -/
theorem strFind_spec : ∀ (t q : List Char) (i : Nat), strFind t q = some i →
    i ≤ t.length ∧ q <+: t.drop i := by
  intro t
  induction t with
  | nil =>
    intro q i h
    simp only [strFind] at h
    split at h
    · rename_i hq
      cases h
      exact ⟨Nat.le_refl 0, by simp [hq]⟩
    · cases h
  | cons c ts ih =>
    intro q i h
    simp only [strFind] at h
    split at h
    · rename_i hp
      cases h
      exact ⟨Nat.zero_le _, hp⟩
    · rcases Option.map_eq_some'.mp h with ⟨j, hj, rfl⟩
      obtain ⟨h1, h2⟩ := ih q j hj
      exact ⟨by simpa using Nat.succ_le_succ h1, by simpa using h2⟩

/-- The shape of the emphasis wrapper, with the string literals unfolded. -/
theorem emWrap_eq (target : List Char) :
    emWrap target = '<' :: 'e' :: 'm' :: '>' :: (target ++ ['<', '/', 'e', 'm', '>']) := by
  simp [emWrap]

/-- An infix of a cons that is not a prefix is an infix of the tail. -/
theorem infix_of_cons_not_prefix {a : List Char} {x : Char} {l : List Char}
    (h : a <:+: x :: l) (hnp : ¬ a <+: x :: l) : a <:+: l := by
  obtain ⟨s, t, hst⟩ := h
  cases s with
  | nil => exact absurd ⟨t, by simpa using hst⟩ hnp
  | cons y s' =>
    rw [List.cons_append, List.cons_append] at hst
    injection hst with _ h2
    exact ⟨s', t, h2⟩

/-- Emitting an all-literal template reproduces its characters. -/
theorem flatMap_map_lit (m : List Char) (g : TmplPiece → List Char)
    (hg : ∀ ch, g (.lit ch) = [ch]) : (m.map TmplPiece.lit).flatMap g = m := by
  induction m with
  | nil => rfl
  | cons c cs ih => simp [hg, ih]

/-- A backslash-free replacement parses to its literal characters. -/
theorem parseTemplateAux_no_backslash :
    ∀ (l : List Char) (fuel : Nat), l.length ≤ fuel → '\\' ∉ l →
      parseTemplateAux fuel l = .ok (l.map TmplPiece.lit) := by
  intro l
  induction l with
  | nil => intro fuel _ _; cases fuel <;> rfl
  | cons c cs ih =>
    intro fuel hf hmem
    cases fuel with
    | zero => exact absurd hf (by simp)
    | succ f =>
      have hc : ¬ c = '\\' := fun h => hmem (h ▸ List.mem_cons_self _ _)
      have hcs : '\\' ∉ cs := fun h => hmem (List.mem_cons_of_mem _ h)
      simp only [parseTemplateAux, if_neg hc]
      rw [ih f (Nat.le_of_succ_le_succ (by simpa using hf)) hcs]
      rfl

/-- A backslash-free replacement parses to its literal characters. -/
theorem parseTemplate_no_backslash {l : List Char} (h : '\\' ∉ l) :
    parseTemplate l = .ok (l.map TmplPiece.lit) :=
  parseTemplateAux_no_backslash l l.length (Nat.le_refl _) h

/-- The emphasis wrapper around a backslash-free target is
backslash-free. -/
theorem backslash_not_mem_emWrap {target : List Char} (h : '\\' ∉ target) :
    '\\' ∉ emWrap target := by
  rw [emWrap_eq]
  intro hmem
  simp only [List.mem_cons, List.mem_append] at hmem
  rcases hmem with h1 | h1 | h1 | h1 | h1
  · exact absurd h1 (by decide)
  · exact absurd h1 (by decide)
  · exact absurd h1 (by decide)
  · exact absurd h1 (by decide)
  · rcases h1 with h2 | h2
    · exact h h2
    · exact absurd h2 (by decide)

/-- The core `re.sub` loop with the all-literal emphasis template wraps
the target whenever the (lowered) target occurs in the (lowered) input. -/
theorem reSubAux_lit_contains (target : List Char) (hne : target ≠ []) :
    ∀ (fuel : Nat) (s : List Char), s.length ≤ fuel →
      lowerL target <:+: lowerL s →
      emWrap target <:+: reSubAux target ((emWrap target).map TmplPiece.lit) fuel s := by
  intro fuel
  induction fuel with
  | zero =>
    intro s hs hinf
    have hsnil : s = [] := List.length_eq_zero.mp (Nat.le_zero.mp hs)
    subst hsnil
    rw [show lowerL [] = [] from rfl, List.infix_nil] at hinf
    exact absurd (List.map_eq_nil_iff.mp hinf) hne
  | succ fuel ih =>
    intro s hs hinf
    match s with
    | [] =>
      rw [show lowerL [] = [] from rfl, List.infix_nil] at hinf
      exact absurd (List.map_eq_nil_iff.mp hinf) hne
    | c :: cs =>
      simp only [reSubAux]
      split
      · rw [flatMap_map_lit _ _ (fun ch => rfl)]
        exact (List.prefix_append _ _).isInfix
      · rename_i hcond
        have hnp : ¬ (lowerL target <+: lowerL (c :: cs)) := by
          intro hp
          apply hcond
          refine ⟨?_, hne⟩
          rw [List.prefix_iff_eq_take] at hp
          simp only [lowerL, List.length_map] at hp
          rw [← List.map_take] at hp
          simp only [lowerL]
          exact hp.symm
        have hcons : lowerL (c :: cs) = Char.toLower c :: lowerL cs := rfl
        rw [hcons] at hinf hnp
        have htail : lowerL target <:+: lowerL cs := infix_of_cons_not_prefix hinf hnp
        have hlen : cs.length ≤ fuel := Nat.le_of_succ_le_succ (by simpa using hs)
        exact List.infix_cons (ih cs hlen htail)

/-- For a backslash-free target, the whole `try/except` substitution block
emphasizes the target whenever it occurs case-insensitively. -/
theorem reSubEm_contains {s target : List Char} (hne : target ≠ [])
    (hbs : '\\' ∉ target) (h : lowerL target <:+: lowerL s) :
    emWrap target <:+: reSubEm s target := by
  have htpl : parseTemplate (emWrap target) = .ok ((emWrap target).map TmplPiece.lit) :=
    parseTemplate_no_backslash (backslash_not_mem_emWrap hbs)
  unfold reSubEm
  rw [htpl]
  exact reSubAux_lit_contains target hne s.length s (Nat.le_refl _) h

/-- An infix headed by a non-whitespace character survives a leading
whitespace strip of the enclosing list. -/
theorem infix_dropWhile {a m : List Char} {c : Char} {r : List Char}
    (ha : a = c :: r) (hc : isWs c = false) (h : a <:+: m) :
    a <:+: m.dropWhile isWs := by
  obtain ⟨u, v, huv⟩ := h
  subst huv
  rw [List.append_assoc, List.dropWhile_append]
  split
  · subst ha
    rw [List.cons_append, List.dropWhile_cons, hc]
    simp only [Bool.false_eq_true, if_false]
    exact (List.prefix_append _ _).isInfix
  · exact ⟨List.dropWhile isWs u, v, List.append_assoc _ _ _⟩

/-- An infix whose first and last characters are non-whitespace survives
`str.strip` of the enclosing string. -/
theorem infix_stripL {a l : List Char} (h : a <:+: l)
    {c1 : Char} {r1 : List Char} (ha1 : a = c1 :: r1) (hc1 : isWs c1 = false)
    {c2 : Char} {r2 : List Char} (ha2 : a.reverse = c2 :: r2) (hc2 : isWs c2 = false) :
    a <:+: stripL l := by
  have s1 : a <:+: l.dropWhile isWs := infix_dropWhile ha1 hc1 h
  have s2 : a.reverse <:+: (l.dropWhile isWs).reverse := List.reverse_infix.mpr s1
  have s3 : a.reverse <:+: ((l.dropWhile isWs).reverse).dropWhile isWs :=
    infix_dropWhile ha2 hc2 s2
  have s4 := List.reverse_infix.mpr s3
  simpa [stripL] using s4

/-- `str.strip` of a string starting with the ellipsis marker still starts
with the ellipsis marker (a dot is not whitespace, so neither end of the
strip can reach past the three leading dots). -/
theorem stripL_dots_take (rest : List Char) :
    (stripL ('.' :: '.' :: '.' :: rest)).take 3 = ['.', '.', '.'] := by
  have hdot : isWs '.' = false := by decide
  unfold stripL
  rw [List.dropWhile_cons, hdot]
  simp only [Bool.false_eq_true, if_false]
  have hrev : ('.' :: '.' :: '.' :: rest).reverse = rest.reverse ++ ['.', '.', '.'] := by
    simp
  rw [hrev, List.dropWhile_append]
  split
  · simp [hdot]
  · rw [List.reverse_append]
    rw [show (['.', '.', '.'] : List Char).reverse = ['.', '.', '.'] from rfl]
    rw [show (3 : Nat) = (['.', '.', '.'] : List Char).length from rfl]
    exact List.take_left _ _

/-- The extraction window always contains the found occurrence: the lowered
target is an infix of the lowered window slice
`text[max(0, idx - window//2) : min(len(text), idx + len(target) + window//2)]`. -/
theorem window_contains_occurrence (t target : List Char) (idx window : Nat)
    (hfind : strFind (lowerL t) (lowerL target) = some idx) :
    lowerL target <:+:
      lowerL ((t.drop (idx - window / 2)).take
        (min t.length (idx + target.length + window / 2) - (idx - window / 2))) := by
  obtain ⟨hle, hpre⟩ := strFind_spec (lowerL t) (lowerL target) idx hfind
  have hlenL : (lowerL t).length = t.length := List.length_map _ _
  have hlenq : (lowerL target).length = target.length := List.length_map _ _
  have hbound : idx + target.length ≤ t.length := by
    have := hpre.length_le
    rw [List.length_drop] at this
    omega
  set start := idx - window / 2 with hstart
  set stop := min t.length (idx + target.length + window / 2) with hstop
  have hsi : start ≤ idx := Nat.sub_le _ _
  have hski : idx + target.length ≤ stop := by omega
  rw [show lowerL ((t.drop start).take (stop - start))
        = ((lowerL t).drop start).take (stop - start) by
      simp [lowerL, List.map_take, List.map_drop]]
  have hdrop : (((lowerL t).drop start).take (stop - start)).drop (idx - start)
      = ((lowerL t).drop idx).take (stop - idx) := by
    rw [List.drop_take, List.drop_drop]
    congr 1
    · omega
    · congr 1
      omega
  have hpre2 : lowerL target <+: ((lowerL t).drop idx).take (stop - idx) := by
    rw [List.prefix_iff_eq_take] at hpre ⊢
    rw [List.take_take]
    rw [hlenq] at hpre ⊢
    rw [min_eq_left (by omega)]
    exact hpre
  rw [List.prefix_iff_eq_take] at hpre2
  refine List.infix_iff_prefix_suffix.mpr
    ⟨(((lowerL t).drop start).take (stop - start)).drop (idx - start), ?_, List.drop_suffix _ _⟩
  rw [hdrop]
  exact List.prefix_iff_eq_take.mpr hpre2

/-- The reversed emphasis wrapper, with the string literals unfolded. -/
theorem emWrap_reverse (target : List Char) :
    (emWrap target).reverse
      = '>' :: 'm' :: 'e' :: '/' :: '<' :: (target.reverse ++ ['>', 'm', 'e', '<']) := by
  rw [emWrap_eq]
  simp

/-- **C5 (amended).**  For every text, window size, and non-blank query
whose whole lowered form occurs in the lowered text at (first) index
`idx`, and whose replacement template does not hit the uncaught
`IndexError` path (where the program raises instead of returning):
(1) when the target is backslash-free (so the replacement template is
valid) the snippet wraps the target in the emphasis marker — with the
*query's* casing inside the marker, not the text's; (2) when the window is
truncated at the start of the text (`window/2 < idx`) the snippet starts
with the ellipsis marker, and (3) when it is not, nothing is prepended:
the snippet is exactly the stripped substituted window plus the optional
trailing ellipsis; (4) when the template raises the (caught) `re.error`,
the snippet is returned with the window slice unemphasized. -/
theorem claim5_snippet (text query : String) (window idx : Nat)
    (hq : stripL query.data ≠ [])
    (hfind : strFind (lowerL text.data) (lowerL (stripL query.data)) = some idx)
    (htpl : parseTemplate (emWrap (stripL query.data)) ≠ TmplResult.indexError) :
    ('\\' ∉ stripL query.data →
      emWrap (stripL query.data) <:+: (make_snippet text query window).data) ∧
    (window / 2 < idx →
      (make_snippet text query window).data.take 3 = ['.', '.', '.']) ∧
    (idx ≤ window / 2 →
      (make_snippet text query window).data
        = stripL (reSubEm (snippetWindow text.data (stripL query.data) idx window)
              (stripL query.data) ++
            if min text.data.length (idx + (stripL query.data).length + window / 2)
                < text.data.length then ['.', '.', '.'] else [])) ∧
    (parseTemplate (emWrap (stripL query.data)) = TmplResult.reError →
      (make_snippet text query window).data
        = stripL ((if 0 < idx - window / 2 then ['.', '.', '.'] else []) ++
            snippetWindow text.data (stripL query.data) idx window ++
            if min text.data.length (idx + (stripL query.data).length + window / 2)
                < text.data.length then ['.', '.', '.'] else [])) := by
  have hunfold : (make_snippet text query window).data
      = stripL ((if 0 < idx - window / 2 then ['.', '.', '.'] else []) ++
          reSubEm (snippetWindow text.data (stripL query.data) idx window)
            (stripL query.data) ++
          if min text.data.length (idx + (stripL query.data).length + window / 2)
              < text.data.length then ['.', '.', '.'] else []) := by
    simp only [make_snippet, hq, if_neg, hfind, if_false, snippetWindow]
  refine ⟨?_, ?_, ?_, ?_⟩
  · intro hbs
    rw [hunfold]
    have hocc := window_contains_occurrence text.data (stripL query.data) idx window hfind
    have hrc : emWrap (stripL query.data) <:+:
        reSubEm (snippetWindow text.data (stripL query.data) idx window)
          (stripL query.data) := reSubEm_contains hq hbs hocc
    exact infix_stripL (hrc.trans (List.infix_append _ _ _))
      (emWrap_eq _) (by decide) (emWrap_reverse _) (by decide)
  · intro hwin
    rw [hunfold]
    have h0 : 0 < idx - window / 2 := Nat.sub_pos_iff_lt.mpr hwin
    rw [if_pos h0]
    exact stripL_dots_take _
  · intro hle
    rw [hunfold]
    have h0 : idx - window / 2 = 0 := Nat.sub_eq_zero_of_le hle
    rw [h0]
    simp
  · intro hre
    rw [hunfold]
    simp only [reSubEm, hre]

/-- **C5 witness.**  The default window over `"the quick brown fox"` with
query `"quick"` yields `"the <em>quick</em> brown fox"` — emphasized
`quick`, no leading ellipsis; query `"\q"` (a bad replacement escape:
`re.error`, swallowed) leaves `"x\qY"` unemphasized; and the amended
theorem applied at window 4, match index 4 > 4/2: the emphasized token
appears and the snippet starts with a leading ellipsis. -/
theorem claim5_witness :
    (make_snippet "the quick brown fox" "quick" = "the <em>quick</em> brown fox") ∧
    (make_snippet "x\\qY" "\\q" = "x\\qY") ∧
    (('\\' ∉ stripL "quick".data →
        emWrap (stripL "quick".data) <:+:
          (make_snippet "the quick brown fox" "quick" 4).data) ∧
     (4 / 2 < 4 →
        (make_snippet "the quick brown fox" "quick" 4).data.take 3 = ['.', '.', '.']) ∧
     (4 ≤ 4 / 2 →
        (make_snippet "the quick brown fox" "quick" 4).data
          = stripL (reSubEm
                (snippetWindow "the quick brown fox".data (stripL "quick".data) 4 4)
                (stripL "quick".data) ++
              if min "the quick brown fox".data.length
                  (4 + (stripL "quick".data).length + 4 / 2)
                  < "the quick brown fox".data.length then ['.', '.', '.'] else [])) ∧
     (parseTemplate (emWrap (stripL "quick".data)) = TmplResult.reError →
        (make_snippet "the quick brown fox" "quick" 4).data
          = stripL ((if 0 < 4 - 4 / 2 then ['.', '.', '.'] else []) ++
              snippetWindow "the quick brown fox".data (stripL "quick".data) 4 4 ++
              if min "the quick brown fox".data.length
                  (4 + (stripL "quick".data).length + 4 / 2)
                  < "the quick brown fox".data.length then ['.', '.', '.'] else []))) :=
  ⟨by decide, by decide,
   claim5_snippet "the quick brown fox" "quick" 4 4 (by decide) (by decide) (by decide)⟩

/-- **C5 counterexample.**  The matched substring's original casing is NOT
preserved: over text `"the QUICK brown fox"` and query `"quick"` the
emphasized token carries the query's lowercase casing, and the uppercase
`QUICK` of the text no longer appears in the snippet at all. -/
theorem claim5_counterexample :
    make_snippet "the QUICK brown fox" "quick" = "the <em>quick</em> brown fox" ∧
    ¬ ("QUICK".data <:+: (make_snippet "the QUICK brown fox" "quick").data) := by
  constructor
  · decide
  · decide

/-! ## C3: multi-term query aggregation

`_db_search_laws` of `src/main.py` and `search_law` of
`src/pipeline/collectors/law_collector.py`. -/

/-- A law row as the orchestrator reads it back from PostgreSQL
(`src/models/entities.py::Law`, the fields `_law_row_to_search_result`
uses). -/
structure LawRow where
  law_id : String
  law_name_kr : String
  law_abbr : Option String := none
  department : Option String := none
  law_type : Option String := none
  status : Option String := none
  enforce_date : Option String := none
  promulgate_date : Option String := none
  detail_link : Option String := none
deriving DecidableEq

/-- `LawSearchResult` of `src/main.py` (`matched_articles`, always `None`
on the modelled paths, is omitted). -/
structure LawSearchResult where
  law_id : String
  law_name_kr : String
  law_abbr : Option String := none
  department : Option String := none
  law_type : Option String := none
  status : Option String := none
  enforce_date : Option String := none
  promulgate_date : Option String := none
  score : Option ℚ := none
  snippet : Option String := none
  detail_link : Option String := none
deriving DecidableEq

/-- Helper of `pySplitComma`: accumulates the current (reversed) segment. -/
def splitCommaAux : List Char → List Char → List String
  | [], acc => [⟨acc.reverse⟩]
  | c :: cs, acc =>
    if c = ',' then ⟨acc.reverse⟩ :: splitCommaAux cs [] else splitCommaAux cs (c :: acc)

/-- Python `s.split(",")`: split at every comma, keeping empty segments. -/
def pySplitComma (s : String) : List String := splitCommaAux s.data []

/-- `_split_query_list` of `src/main.py`: comma-split, strip each part,
keep the non-empty parts. -/
def split_query_list (query : String) : List String :=
  ((pySplitComma query).map pyStrip).filter (· ≠ "")

/-- The searchable text `_law_row_to_search_result` builds:
`" ".join([p for p in [name, abbr or "", dept or "", law_id] if p]).strip()`. -/
def lawSearchable (law : LawRow) : String :=
  pyStrip (String.intercalate " "
    (([law.law_name_kr, law.law_abbr.getD "", law.department.getD "",
       law.law_id]).filter (· ≠ "")))

/-- `_law_row_to_search_result` of `src/main.py`. -/
def law_row_to_search_result (law : LawRow) (query : String) : LawSearchResult :=
  let searchable := lawSearchable law
  let score := lexical_score searchable query
  { law_id := law.law_id
    law_name_kr := law.law_name_kr
    law_abbr := law.law_abbr
    department := law.department
    law_type := law.law_type
    status := law.status
    enforce_date := law.enforce_date
    promulgate_date := law.promulgate_date
    score := some score
    snippet := if 0 < score then some (make_snippet searchable query) else none
    detail_link := law.detail_link }

/-- The Python sort key `(-(r.score or 0.0), r.law_name_kr)`, as the
"comes no later than" relation of the ascending sort. -/
def resultLe (a b : LawSearchResult) : Prop :=
  b.score.getD 0 < a.score.getD 0 ∨
    (a.score.getD 0 = b.score.getD 0 ∧ a.law_name_kr ≤ b.law_name_kr)

instance : DecidableRel resultLe := fun a b => by unfold resultLe; infer_instance

/-- Association-list lookup, modelling Python `dict.get` (keys are kept
unique by construction, see `upsertMax`). -/
def alookup {α : Type} (k : String) : List (String × α) → Option α
  | [] => none
  | p :: ps => if p.1 = k then some p.2 else alookup k ps

/-- One `by_id[r.law_id] = r` step of `_db_search_laws`:
`if prev is None or (r.score or 0.0) > (prev.score or 0.0)`.  A Python dict
assignment to an existing key replaces the value in place (insertion order
kept); a new key is appended. -/
def upsertMax (m : List (String × LawSearchResult)) (r : LawSearchResult) :
    List (String × LawSearchResult) :=
  match alookup r.law_id m with
  | none => m ++ [(r.law_id, r)]
  | some prev =>
    if prev.score.getD 0 < r.score.getD 0 then
      m.map (fun p => if p.1 = r.law_id then (r.law_id, r) else p)
    else m

/-- One iteration of the `_db_search_laws` loop over a sub-query: the SQL
candidate fetch is an external call (modelled by the `fetch` oracle); its
rows are scored, zero scores dropped, sorted by `(-score, name)` and
truncated to the per-query budget. -/
def subQueryTop (fetch : String → List LawRow) (per : Nat) (q : String) :
    List LawSearchResult :=
  (List.insertionSort resultLe
      (((fetch q).map (law_row_to_search_result · q)).filter
        (fun r => decide (0 < r.score.getD 0)))).take per

/-- The `by_id` dict of `_db_search_laws` after its outer loop. -/
def dbSearchMerged (fetch : String → List LawRow) (query : String) (top_k : Nat) :
    List (String × LawSearchResult) :=
  let ql := split_query_list query
  let per := max 1 (top_k / ql.length)
  ql.foldl (fun m q => (subQueryTop fetch per q).foldl upsertMax m) []

/-- All per-sub-query contributions in loop order: exactly the entries the
`by_id` merge consumes. -/
def dbContribs (fetch : String → List LawRow) (query : String) (top_k : Nat) :
    List LawSearchResult :=
  let ql := split_query_list query
  let per := max 1 (top_k / ql.length)
  ql.flatMap (subQueryTop fetch per)

/-- `_db_search_laws` of `src/main.py`: empty query list short-circuits;
otherwise the merged values are sorted by `(-score, name)` and truncated
to `top_k`. -/
def db_search_laws (fetch : String → List LawRow) (query : String) (top_k : Nat) :
    List LawSearchResult :=
  if split_query_list query = [] then []
  else (List.insertionSort resultLe ((dbSearchMerged fetch query top_k).map (·.2))).take top_k

/-- One refined record of `fetch_law_for_query` of the collector (all
fields strings, possibly empty; Korean keys transliterated). -/
structure CollectorItem where
  lawNameKr : String := ""
  department : String := ""
  enforceDate : String := ""
  promulgateDate : String := ""
  lawAbbr : String := ""
  detailLink : String := ""
  lawSerial : String := ""
  lawID : String := ""
  statusCode : String := ""
deriving DecidableEq

/-- A collector result tagged with the sub-query that produced it
(`{"검색어": query_str, **law}` in `search_law`). -/
structure TaggedItem where
  searchTerm : String
  item : CollectorItem
deriving DecidableEq

/-- `to_query_list` of the collector — textually identical to
`_split_query_list` of `src/main.py`. -/
def to_query_list (query : String) : List String := split_query_list query

/-- `search_law` of `src/pipeline/collectors/law_collector.py`: split the
query, fetch each sub-query with budget `max(1, top_k // n)` (each remote
call is an oracle and may fail: a failed sub-query is skipped), concatenate
all results in order — with NO deduplication — and truncate to `top_k`. -/
def search_law (fetchRemote : String → Nat → Except String (List CollectorItem))
    (query : String) (top_k : Nat) : List TaggedItem :=
  let ql := to_query_list query
  if ql = [] then []
  else
    let per := max 1 (top_k / ql.length)
    (ql.flatMap (fun q =>
      match fetchRemote q per with
      | .error _ => []
      | .ok items => items.map (fun it => ⟨q, it⟩))).take top_k

/-! ### C3 proofs: the merge keeps one entry per id, at the maximum
contributed score -/

theorem alookup_eq_none {α : Type} {k : String} :
    ∀ {m : List (String × α)}, alookup k m = none ↔ ∀ p ∈ m, p.1 ≠ k := by
  intro m
  induction m with
  | nil => simp [alookup]
  | cons p ps ih =>
    by_cases h : p.1 = k
    · simp [alookup, h]
    · simp [alookup, h, ih]

theorem alookup_eq_some {α : Type} {k : String} {v : α} :
    ∀ {m : List (String × α)}, alookup k m = some v → (k, v) ∈ m := by
  intro m
  induction m with
  | nil => simp [alookup]
  | cons p ps ih =>
    by_cases h : p.1 = k
    · intro hv
      rw [alookup, if_pos h] at hv
      cases hv
      subst h
      rw [Prod.mk.eta]
      exact List.mem_cons_self _ _
    · intro hv
      rw [alookup, if_neg h] at hv
      exact List.mem_cons_of_mem _ (ih hv)

/-- With nodup keys, membership at the same key is unique. -/
theorem mem_eq_of_nodup_keys {α : Type} :
    ∀ {m : List (String × α)}, (m.map (·.1)).Nodup →
      ∀ {p q : String × α}, p ∈ m → q ∈ m → p.1 = q.1 → p = q := by
  intro m
  induction m with
  | nil => simp
  | cons x xs ih =>
    intro hnd p q hp hq hk
    rw [List.map_cons, List.nodup_cons] at hnd
    rcases List.mem_cons.mp hp with rfl | hp'
    · rcases List.mem_cons.mp hq with rfl | hq'
      · rfl
      · exfalso
        apply hnd.1
        rw [hk]
        exact List.mem_map_of_mem (·.1) hq'
    · rcases List.mem_cons.mp hq with rfl | hq'
      · exfalso
        apply hnd.1
        rw [← hk]
        exact List.mem_map_of_mem (·.1) hp'
      · exact ih hnd.2 hp' hq' hk

/-- The invariant that one `upsertMax` step maintains: nodup keys, every
entry is a previously seen contribution of maximal score for its key, and
every seen contribution has an entry at its key. -/
def MergeInv (m : List (String × LawSearchResult)) (seen : List LawSearchResult) : Prop :=
  (m.map (·.1)).Nodup ∧
  (∀ p ∈ m, p.2.law_id = p.1 ∧ p.2 ∈ seen ∧
    ∀ c ∈ seen, c.law_id = p.1 → c.score.getD 0 ≤ p.2.score.getD 0) ∧
  (∀ c ∈ seen, ∃ p ∈ m, p.1 = c.law_id)

theorem mergeInv_nil : MergeInv [] [] := by
  refine ⟨List.nodup_nil, ?_, ?_⟩ <;> simp

/-- One `upsertMax` step maintains the merge invariant. -/
theorem upsertMax_inv {m : List (String × LawSearchResult)} {seen : List LawSearchResult}
    (h : MergeInv m seen) (r : LawSearchResult) :
    MergeInv (upsertMax m r) (seen ++ [r]) := by
  obtain ⟨h1, h2, h3⟩ := h
  cases hl : alookup r.law_id m with
  | none =>
    have hnone := alookup_eq_none.mp hl
    have hup : upsertMax m r = m ++ [(r.law_id, r)] := by
      simp only [upsertMax, hl]
    rw [hup]
    refine ⟨?_, ?_, ?_⟩
    · rw [List.map_append, List.nodup_append]
      refine ⟨h1, by simp, ?_⟩
      intro a ha hb
      simp only [List.map_cons, List.map_nil, List.mem_singleton] at hb
      subst hb
      rcases List.mem_map.mp ha with ⟨p, hp, hpa⟩
      exact hnone p hp hpa
    · intro p hp
      rcases List.mem_append.mp hp with hp' | hp'
      · obtain ⟨hid, hseen, hmax⟩ := h2 p hp'
        refine ⟨hid, List.mem_append_left _ hseen, ?_⟩
        intro c hc hck
        rcases List.mem_append.mp hc with hc' | hc'
        · exact hmax c hc' hck
        · rw [List.mem_singleton] at hc'
          subst hc'
          exact absurd hck.symm (hnone p hp')
      · rw [List.mem_singleton] at hp'
        subst hp'
        refine ⟨rfl, List.mem_append_right _ (List.mem_singleton_self _), ?_⟩
        intro c hc hck
        rcases List.mem_append.mp hc with hc' | hc'
        · obtain ⟨p, hpm, hpk⟩ := h3 c hc'
          exact absurd (hpk.trans hck) (hnone p hpm)
        · rw [List.mem_singleton] at hc'
          subst hc'
          exact le_refl _
    · intro c hc
      rcases List.mem_append.mp hc with hc' | hc'
      · obtain ⟨p, hpm, hpk⟩ := h3 c hc'
        exact ⟨p, List.mem_append_left _ hpm, hpk⟩
      · rw [List.mem_singleton] at hc'
        subst hc'
        exact ⟨_, List.mem_append_right _ (List.mem_singleton_self _), rfl⟩
  | some prev =>
    have hprev : (r.law_id, prev) ∈ m := alookup_eq_some hl
    by_cases hlt : prev.score.getD 0 < r.score.getD 0
    · have hup : upsertMax m r
          = m.map (fun p => if p.1 = r.law_id then (r.law_id, r) else p) := by
        simp only [upsertMax, hl, if_pos hlt]
      rw [hup]
      have hkeys : (m.map (fun p => if p.1 = r.law_id then (r.law_id, r) else p)).map (·.1)
          = m.map (·.1) := by
        rw [List.map_map]
        apply List.map_congr_left
        intro p hp
        by_cases hpk : p.1 = r.law_id
        · simp [hpk]
        · simp [hpk]
      refine ⟨by rw [hkeys]; exact h1, ?_, ?_⟩
      · intro p' hp'
        rcases List.mem_map.mp hp' with ⟨p, hp, rfl⟩
        by_cases hpk : p.1 = r.law_id
        · simp only [if_pos hpk]
          refine ⟨by trivial, by simp, ?_⟩
          intro c hc hck
          rcases List.mem_append.mp hc with hc' | hc'
          · obtain ⟨hid2, hseen2, hmax2⟩ := h2 (r.law_id, prev) hprev
            exact le_of_lt (lt_of_le_of_lt (hmax2 c hc' hck) hlt)
          · rw [List.mem_singleton] at hc'
            subst hc'
            exact le_refl _
        · simp only [if_neg hpk]
          obtain ⟨hid, hseen, hmax⟩ := h2 p hp
          refine ⟨hid, List.mem_append_left _ hseen, ?_⟩
          intro c hc hck
          rcases List.mem_append.mp hc with hc' | hc'
          · exact hmax c hc' hck
          · rw [List.mem_singleton] at hc'
            subst hc'
            exact absurd hck.symm hpk
      · intro c hc
        rcases List.mem_append.mp hc with hc' | hc'
        · obtain ⟨p, hpm, hpk⟩ := h3 c hc'
          refine ⟨_, List.mem_map_of_mem _ hpm, ?_⟩
          by_cases hk : p.1 = r.law_id
          · rw [if_pos hk]
            rw [← hk]
            exact hpk
          · rw [if_neg hk]
            exact hpk
        · rw [List.mem_singleton] at hc'
          subst hc'
          refine ⟨_, List.mem_map_of_mem _ hprev, ?_⟩
          simp
    · have hup : upsertMax m r = m := by
        simp only [upsertMax, hl, if_neg hlt]
      rw [hup]
      refine ⟨h1, ?_, ?_⟩
      · intro p hp
        obtain ⟨hid, hseen, hmax⟩ := h2 p hp
        refine ⟨hid, List.mem_append_left _ hseen, ?_⟩
        intro c hc hck
        rcases List.mem_append.mp hc with hc' | hc'
        · exact hmax c hc' hck
        · rw [List.mem_singleton] at hc'
          rw [hc'] at hck ⊢
          have hpe : p = (r.law_id, prev) := mem_eq_of_nodup_keys h1 hp hprev hck.symm
          rw [hpe]
          exact not_lt.mp hlt
      · intro c hc
        rcases List.mem_append.mp hc with hc' | hc'
        · exact h3 c hc'
        · rw [List.mem_singleton] at hc'
          rw [hc']
          exact ⟨(r.law_id, prev), hprev, rfl⟩

/-- Folding `upsertMax` over a contribution list maintains the invariant. -/
theorem foldl_upsertMax_inv :
    ∀ (cs : List LawSearchResult) (m : List (String × LawSearchResult))
      (seen : List LawSearchResult),
      MergeInv m seen → MergeInv (cs.foldl upsertMax m) (seen ++ cs) := by
  intro cs
  induction cs with
  | nil => intro m seen h; simpa using h
  | cons r cs ih =>
    intro m seen h
    have := ih (upsertMax m r) (seen ++ [r]) (upsertMax_inv h r)
    simpa [List.append_assoc] using this

/-- The nested per-sub-query fold equals one fold over the concatenated
contributions. -/
theorem foldl_upsertMax_flatMap (f : String → List LawSearchResult) :
    ∀ (ql : List String) (m : List (String × LawSearchResult)),
      ql.foldl (fun m q => (f q).foldl upsertMax m) m = (ql.flatMap f).foldl upsertMax m := by
  intro ql
  induction ql with
  | nil => intro m; rfl
  | cons q ql ih =>
    intro m
    rw [List.flatMap_cons, List.foldl_append, List.foldl_cons]
    exact ih _

/-- The `by_id` dict is exactly the fold of `upsertMax` over the
contributions. -/
theorem dbSearchMerged_eq (fetch : String → List LawRow) (query : String) (top_k : Nat) :
    dbSearchMerged fetch query top_k = (dbContribs fetch query top_k).foldl upsertMax [] := by
  unfold dbSearchMerged dbContribs
  exact foldl_upsertMax_flatMap _ _ []

/-- **C3 (amended).**  For the persistent-store aggregation
`_db_search_laws`: the merged `by_id` values carry pairwise distinct
document ids; every contributed id is present in the merge; every merged
entry is one of the per-sub-query contributions and its score is maximal
among the contributions carrying its id; and the returned list is a
selection of merged values of length at most `top_k` with pairwise
distinct ids.  (The collector-side aggregation `search_law` concatenates
without deduplicating — see the counterexample.) -/
theorem claim3_db_merge (fetch : String → List LawRow) (query : String) (top_k : Nat) :
    ((((dbSearchMerged fetch query top_k).map (·.2)).map (·.law_id)).Nodup ∧
      (∀ c ∈ dbContribs fetch query top_k,
        c.law_id ∈ ((dbSearchMerged fetch query top_k).map (·.2)).map (·.law_id)) ∧
      (∀ r ∈ (dbSearchMerged fetch query top_k).map (·.2),
        r ∈ dbContribs fetch query top_k ∧
          ∀ c ∈ dbContribs fetch query top_k,
            c.law_id = r.law_id → c.score.getD 0 ≤ r.score.getD 0)) ∧
    (db_search_laws fetch query top_k).length ≤ top_k ∧
    ((db_search_laws fetch query top_k).map (·.law_id)).Nodup ∧
    (∀ r ∈ db_search_laws fetch query top_k,
      r ∈ (dbSearchMerged fetch query top_k).map (·.2)) := by
  have hinv := foldl_upsertMax_inv (dbContribs fetch query top_k) [] [] mergeInv_nil
  rw [← dbSearchMerged_eq, List.nil_append] at hinv
  obtain ⟨h1, h2, h3⟩ := hinv
  have hmA : ((dbSearchMerged fetch query top_k).map (·.2)).map (·.law_id)
      = (dbSearchMerged fetch query top_k).map (·.1) := by
    rw [List.map_map]
    exact List.map_congr_left (fun p hp => (h2 p hp).1)
  have hA : (((dbSearchMerged fetch query top_k).map (·.2)).map (·.law_id)).Nodup := by
    rw [hmA]; exact h1
  refine ⟨⟨hA, ?_, ?_⟩, ?_, ?_, ?_⟩
  · intro c hc
    obtain ⟨p, hpm, hpk⟩ := h3 c hc
    rw [hmA]
    exact List.mem_map.mpr ⟨p, hpm, hpk⟩
  · intro r hr
    obtain ⟨p, hpm, rfl⟩ := List.mem_map.mp hr
    obtain ⟨hid, hseen, hmax⟩ := h2 p hpm
    refine ⟨hseen, ?_⟩
    intro c hc hck
    exact hmax c hc (by rw [hck, hid])
  · unfold db_search_laws
    split
    · simp
    · rw [List.length_take]
      exact min_le_left _ _
  · unfold db_search_laws
    split
    · simp
    · rw [List.map_take]
      refine List.Nodup.sublist (List.take_sublist _ _) ?_
      have hperm := (List.perm_insertionSort resultLe
        ((dbSearchMerged fetch query top_k).map (·.2))).map (·.law_id)
      exact hperm.symm.nodup hA
  · intro r hr
    unfold db_search_laws at hr
    split at hr
    · simp at hr
    · have hr2 := (List.take_sublist _ _).subset hr
      exact (List.mem_insertionSort resultLe).mp hr2

/-- **C3 counterexample.**  The collector-side aggregation `search_law`
keeps duplicate ids: when both sub-queries of `"a, b"` return the same law
id `"X"`, the aggregated output contains id `"X"` twice, not once. -/
theorem claim3_counterexample :
    ((search_law (fun _ _ => .ok [{ lawID := "X" }]) "a, b" 10).map (·.item.lawID))
      = ["X", "X"] ∧
    ¬ ((search_law (fun _ _ => .ok [{ lawID := "X" }]) "a, b" 10).map (·.item.lawID)).Nodup := by
  constructor
  · decide
  · decide

/-! ## C1, C2: the tiered search orchestrator (`law_search` of
`src/main.py`) -/

/-- Python `str(x or "")` / `(x or None)` on an always-present string
field: the empty string maps to `None`. -/
def strOrNone (s : String) : Option String := if s = "" then none else some s

/-- `_map_collector_result` of `src/main.py`. -/
def map_collector_result (item : CollectorItem) : LawSearchResult :=
  { law_id := item.lawID
    law_name_kr := item.lawNameKr
    law_abbr := strOrNone item.lawAbbr
    department := strOrNone item.department
    law_type := none
    status := strOrNone item.statusCode
    enforce_date := strOrNone item.enforceDate
    promulgate_date := strOrNone item.promulgateDate
    score := none
    snippet := none
    detail_link := strOrNone item.detailLink }

/-- The error responses the `law_search` endpoint can raise
(`HTTPException` 503 `ServiceUnavailable` / 500 `InternalServerError`). -/
inductive HttpError where
  | serviceUnavailable
  | internalServerError
deriving DecidableEq

/-- `law_search` of `src/main.py` (the `POST /api/v1/law/search` handler):
DB-first, then the law.go.kr fallback when configured, with a best-effort
write-back whose failure is swallowed (rollback, response unchanged).
External effects are oracle parameters: `dbOutcome` is the
`_db_search_laws` call on the live session, `apiKey` the truthiness of
`settings.law_api_key`, `collector` the remote `search_law` call,
`writeBack` the `_cache_search_results_to_db` + commit attempt.  On
success the model returns the result list paired with the number of
write-back invocations. -/
def law_search (dbOutcome : Except String (List LawSearchResult)) (apiKey : Bool)
    (collector : Except String (List CollectorItem)) (writeBack : Except String Unit) :
    Except HttpError (List LawSearchResult × Nat) :=
  let dbError : Option String := match dbOutcome with
    | .ok _ => none
    | .error e => some e
  let results : List LawSearchResult := match dbOutcome with
    | .ok r => r
    | .error _ => []
  if results.isEmpty ∧ apiKey then
    match collector with
    | .error _ => .error .internalServerError
    | .ok raw =>
      match writeBack with
      | .ok _ => .ok (raw.map map_collector_result, 1)
      | .error _ => .ok (raw.map map_collector_result, 1)
  else if results.isEmpty ∧ ¬ apiKey ∧ dbError.isSome then
    .error .serviceUnavailable
  else
    .ok (results, 0)

/-- **C1.**  With no law API key configured: a raising primary search makes
the whole-document search fail with `ServiceUnavailable`; a primary search
that merely returns zero results succeeds with the empty result list (and
no write-back). -/
theorem claim1_tiers (e : String) (collector : Except String (List CollectorItem))
    (writeBack : Except String Unit) :
    law_search (.error e) false collector writeBack = .error .serviceUnavailable ∧
    law_search (.ok []) false collector writeBack = .ok ([], 0) := by
  constructor <;> rfl

/-- **C2.**  When the primary search returns zero results or raises and the
secondary source is configured and returns `raw` (N records): the N mapped
records are returned, the write-back is invoked exactly once, and the
response does not depend on the write-back outcome — a write-back failure
is caught and never propagates. -/
theorem claim2_fallback (dbOutcome : Except String (List LawSearchResult))
    (raw : List CollectorItem) (wb wb' : Except String Unit)
    (hdb : dbOutcome = .ok [] ∨ ∃ e, dbOutcome = .error e) :
    law_search dbOutcome true (.ok raw) wb = .ok (raw.map map_collector_result, 1) ∧
    (raw.map map_collector_result).length = raw.length ∧
    law_search dbOutcome true (.ok raw) wb = law_search dbOutcome true (.ok raw) wb' := by
  have hmain : ∀ w : Except String Unit,
      law_search dbOutcome true (.ok raw) w = .ok (raw.map map_collector_result, 1) := by
    intro w
    rcases hdb with rfl | ⟨e, rfl⟩ <;> cases w <;> rfl
  exact ⟨hmain wb, List.length_map _ _, (hmain wb).trans (hmain wb').symm⟩

/-- **C2 witness.**  A concrete run: empty primary result, configured key,
one collector record, failing write-back — the record is returned, the
write-back ran once, and the response equals the one with a succeeding
write-back. -/
theorem claim2_witness :
    law_search (.ok []) true (.ok [{ lawID := "X" }]) (.error "boom")
        = .ok ([({ lawID := "X" } : CollectorItem)].map map_collector_result, 1) ∧
    ([({ lawID := "X" } : CollectorItem)].map map_collector_result).length = 1 ∧
    law_search (.ok []) true (.ok [{ lawID := "X" }]) (.error "boom")
        = law_search (.ok []) true (.ok [{ lawID := "X" }]) (.ok ()) :=
  claim2_fallback (.ok []) [{ lawID := "X" }] (.error "boom") (.ok ()) (Or.inl rfl)

/-! ## C9: the in-memory cache (`src/core/in_memory_cache.py`) -/

/-- The state of an `InMemoryCache`: `_store` as an insertion-ordered map
key ↦ (value, expiry), the `_initialized` flag, and `config.ttl`.
Wall-clock instants are rationals; each `time.time()` reading is passed in
explicitly (the two readings inside one `get` call are modelled as the
same instant). -/
structure CacheState where
  store : List (String × String × ℚ)
  initialized : Bool
  configTtl : ℤ
deriving DecidableEq

/-- `_cleanup_expired`: delete every entry whose expiry lies strictly in
the past (`expiry_time < current_time`). -/
def cleanup_expired (now : ℚ) (st : CacheState) : CacheState :=
  { st with store := st.store.filter (fun e => decide (¬ e.2.2 < now)) }

/-- A Python dict assignment `store[k] = v`: replace in place when the key
exists (insertion order kept), append otherwise. -/
def dictSet {α : Type} (m : List (String × α)) (k : String) (v : α) : List (String × α) :=
  match alookup k m with
  | some _ => m.map (fun p => if p.1 = k then (k, v) else p)
  | none => m ++ [(k, v)]

/-- A Python dict deletion `del store[k]`. -/
def dictDel {α : Type} (m : List (String × α)) (k : String) : List (String × α) :=
  m.filter (fun p => decide (p.1 ≠ k))

/-- `InMemoryCache.get`: raises when not initialized; sweeps expired
entries; then treats a still-present entry as absent (and deletes it) when
`time.time() > expiry_time`. -/
def cacheGet (st : CacheState) (key : String) (now : ℚ) :
    Except String (Option String × CacheState) :=
  if ¬ st.initialized then .error "Cache not initialized"
  else
    let st1 := cleanup_expired now st
    match alookup key st1.store with
    | none => .ok (none, st1)
    | some ve =>
      if now > ve.2 then .ok (none, { st1 with store := dictDel st1.store key })
      else .ok (some ve.1, st1)

/-- `InMemoryCache.set`: `ttl = ttl or self.config.ttl` (Python truthiness:
`None` and `0` both fall back to the configured default), then
`store[key] = (value, time.time() + ttl)`. -/
def cacheSet (st : CacheState) (key value : String) (ttl : Option ℤ) (now : ℚ) :
    Except String CacheState :=
  if ¬ st.initialized then .error "Cache not initialized"
  else
    let t : ℤ := match ttl with
      | none => st.configTtl
      | some t => if t = 0 then st.configTtl else t
    .ok { st with store := dictSet st.store key (value, now + t) }

/-- Any entry of `dictSet m k v` at key `k` is exactly `(k, v)`. -/
theorem dictSet_key_val {α : Type} {m : List (String × α)} {k : String} {v : α} :
    ∀ p ∈ dictSet m k v, p.1 = k → p = (k, v) := by
  intro p hp hk
  unfold dictSet at hp
  cases hl : alookup k m with
  | none =>
    rw [hl] at hp
    rcases List.mem_append.mp hp with hp' | hp'
    · exact absurd hk (alookup_eq_none.mp hl p hp')
    · rwa [List.mem_singleton] at hp'
  | some w =>
    rw [hl] at hp
    rcases List.mem_map.mp hp with ⟨q, hq, rfl⟩
    by_cases hqk : q.1 = k
    · rw [if_pos hqk]
    · rw [if_neg hqk] at hk ⊢
      exact absurd hk hqk

/-- **C9 (amended).**  For an initialized cache and a *nonzero* explicit
ttl, `set(key, value, ttl)` at `t0` followed by `get(key)` at any
`t > t0 + ttl` returns absent, and the access sweeps every entry whose
expiry lies in the past.  (For `ttl = 0` Python's `ttl or config.ttl`
silently substitutes the configured default — see the counterexample.) -/
theorem claim9_cache (st : CacheState) (key value : String) (ttl : ℤ) (t0 t : ℚ)
    (hinit : st.initialized = true) (httl : ttl ≠ 0) (ht : t0 + (ttl : ℚ) < t) :
    ∃ st', cacheSet st key value (some ttl) t0 = .ok st' ∧
      cacheGet st' key t = .ok (none, cleanup_expired t st') ∧
      ∀ e ∈ (cleanup_expired t st').store, ¬ e.2.2 < t := by
  refine ⟨{ st with store := dictSet st.store key (value, t0 + (ttl : ℚ)) }, ?_, ?_, ?_⟩
  · simp [cacheSet, hinit, httl]
  · have hnone : alookup key
        (cleanup_expired t { st with store := dictSet st.store key (value, t0 + (ttl : ℚ)) }).store
        = none := by
      apply alookup_eq_none.mpr
      intro p hp hpk
      obtain ⟨hpm, hpf⟩ := List.mem_filter.mp hp
      have hpe := dictSet_key_val p hpm hpk
      rw [hpe] at hpf
      exact absurd ht (of_decide_eq_true hpf)
    rw [hinit] at hnone
    simp only [cacheGet, hinit, not_true_eq_false, if_false, hnone]
  · intro e he
    obtain ⟨_, hef⟩ := List.mem_filter.mp he
    exact of_decide_eq_true hef

/-- **C9 witness.**  A concrete run on the empty initialized cache:
`set("k", "v", ttl=5)` at time 0, `get("k")` at time 6 > 0 + 5 returns
absent, and the post-access store holds no expired entry. -/
theorem claim9_witness :
    ∃ st', cacheSet ⟨[], true, 100⟩ "k" "v" (some 5) 0 = .ok st' ∧
      cacheGet st' "k" 6 = .ok (none, cleanup_expired 6 st') ∧
      ∀ e ∈ (cleanup_expired 6 st').store, ¬ e.2.2 < 6 :=
  claim9_cache ⟨[], true, 100⟩ "k" "v" 5 0 6 rfl (by decide) (by norm_num)

/-- **C9 counterexample.**  With `ttl = 0`, Python's `ttl = ttl or
self.config.ttl` substitutes the configured default (here 100): a `get` at
time 1 — strictly after `t0 + ttl = 0` — still returns the value instead
of absent. -/
theorem claim9_counterexample :
    cacheSet ⟨[], true, 100⟩ "k" "v" (some 0) 0
        = .ok ⟨[("k", "v", (100 : ℚ))], true, 100⟩ ∧
    cacheGet ⟨[("k", "v", (100 : ℚ))], true, 100⟩ "k" 1
        = .ok (some "v", ⟨[("k", "v", (100 : ℚ))], true, 100⟩) := by
  constructor
  · simp [cacheSet, dictSet, alookup]
  · have h1 : ¬ ((100 : ℚ) < 1) := by norm_num
    have h2 : (1 : ℚ) > 100 ↔ False := by norm_num
    simp [cacheGet, cleanup_expired, alookup, h1, h2]

/-! ## The vector-store backends

`src/core/in_memory_store.py`, `src/core/file_system_store.py`,
`src/core/qdrant_store.py`.  Vector scores go through `np.linalg.norm`
(a square root), so they are modelled in ℝ. -/

/-- `SearchResult` of `src/core/vector_store.py`. -/
structure SearchRes where
  id : String
  score : ℝ
  content : Option String := none
  metadata : List (String × String) := []
  payload : Option (List (String × String)) := none

/-- `np.dot` of two equal-length vectors. -/
def dotL (v1 v2 : List ℝ) : ℝ := ((v1.zip v2).map (fun p => p.1 * p.2)).sum

/-- `np.linalg.norm`: the Euclidean norm. -/
noncomputable def normL (v : List ℝ) : ℝ := Real.sqrt (dotL v v)

/-- `_cosine_similarity` of `InMemoryVectorStore` and
`FileSystemVectorStore` (the two bodies are textually identical):
0.0 when either norm is zero, else dot over the product of the norms. -/
noncomputable def cosine_similarity (v1 v2 : List ℝ) : ℝ :=
  let dot := dotL v1 v2
  let norm1 := normL v1
  let norm2 := normL v2
  if norm1 = 0 ∨ norm2 = 0 then 0 else dot / (norm1 * norm2)

/-- `all(doc.metadata.get(k) == v for k, v in filters.items())`. -/
def matchesFilters (doc : VectorDocument) (filters : List (String × String)) : Bool :=
  filters.all (fun kv => alookup kv.1 doc.metadata == some kv.2)

/-- `if filters:` then conjunctive equality filtering; the empty list
models both `None` and the empty dict (both falsy). -/
def applyFilters (docs : List VectorDocument) (filters : List (String × String)) :
    List VectorDocument :=
  if filters.isEmpty then docs else docs.filter (fun d => matchesFilters d filters)

/-- The comparator of `results_with_scores.sort(key=lambda x: x[1],
reverse=True)`: descending by the score component. -/
def scoreGe (a b : VectorDocument × ℝ) : Prop := b.2 ≤ a.2

noncomputable instance : DecidableRel scoreGe :=
  fun a b => inferInstanceAs (Decidable (b.2 ≤ a.2))

instance : IsTotal (VectorDocument × ℝ) scoreGe := ⟨fun a b => le_total b.2 a.2⟩

instance : IsTrans (VectorDocument × ℝ) scoreGe := ⟨fun _ _ _ h1 h2 => le_trans h2 h1⟩

/-- The scored-document-to-`SearchResult` conversion both local backends
end their searches with. -/
def toSearchRes (p : VectorDocument × ℝ) : SearchRes :=
  { id := p.1.id, score := p.2, content := some p.1.content,
    metadata := p.1.metadata, payload := p.1.payload }

/-- The common body of `InMemoryVectorStore.search` and
`FileSystemVectorStore.search` (textually identical in the source): filter
by metadata, score every candidate by cosine similarity, sort descending,
truncate to `top_k`. -/
noncomputable def searchDocs (docs : List VectorDocument) (query_embedding : List ℝ)
    (top_k : Nat) (filters : List (String × String)) : List SearchRes :=
  let filtered := applyFilters docs filters
  if filtered.isEmpty then []
  else
    let scored := filtered.map (fun d => (d, cosine_similarity query_embedding d.embedding))
    ((List.insertionSort scoreGe scored).take top_k).map toSearchRes

/-- `FileSystemVectorStore._lexical_search`: per-document lexical scores,
zero scores dropped, sorted descending. -/
noncomputable def fs_lexical_search (query : String) (documents : List VectorDocument) :
    List (VectorDocument × ℝ) :=
  List.insertionSort scoreGe
    ((documents.map (fun d => (d, fsLexScore (fsSearchable d) query))).filter
      (fun p => decide (0 < p.2)))

/-- `FileSystemVectorStore.hybrid_search` over the collection's document
list (`_get_all_documents` is disk I/O; the directory snapshot is the
`docs` parameter): per-id vector/lexical score dicts, combined with the
given weights, sorted descending, truncated. -/
noncomputable def fs_hybrid_search (docs : List VectorDocument) (query : String)
    (query_embedding : List ℝ) (top_k : Nat) (filters : List (String × String))
    (vector_weight lexical_weight : ℝ) : List SearchRes :=
  let filtered := applyFilters docs filters
  if filtered.isEmpty then []
  else
    let vector_scores := filtered.foldl
      (fun m d => dictSet m d.id (cosine_similarity query_embedding d.embedding)) []
    let lexical_scores := (fs_lexical_search query filtered).foldl
      (fun m p => dictSet m p.1.id p.2) []
    let combined_scores := filtered.foldl
      (fun m d => dictSet m d.id ((alookup d.id vector_scores).getD 0 * vector_weight +
        (alookup d.id lexical_scores).getD 0 * lexical_weight)) []
    let rws := filtered.filterMap
      (fun d => (alookup d.id combined_scores).map (fun s => (d, s)))
    ((List.insertionSort scoreGe rws).take top_k).map toSearchRes

/-- The state of an `InMemoryVectorStore`: `_collections` is a
`defaultdict(dict)` — an insertion-ordered map collection-name ↦
(insertion-ordered map doc-id ↦ document) — plus the `_initialized` flag
(which, notably, no operation ever consults) and the configured default
collection name. -/
structure IMState where
  collections : List (String × List (String × VectorDocument))
  initialized : Bool
  defaultCollection : String

/-- A `defaultdict(dict)` read `self._collections[name]`: returns the inner
dict and, when the key is missing, CREATES an empty entry for it. -/
def ddGetC (cols : List (String × List (String × VectorDocument))) (name : String) :
    List (String × VectorDocument) × List (String × List (String × VectorDocument)) :=
  match alookup name cols with
  | some d => (d, cols)
  | none => ([], cols ++ [(name, [])])

/-- `_get_collection_name`: `collection or self.config.collection_name`
(`None` and the empty string are falsy). -/
def getCollectionName (dflt : String) (collection : Option String) : String :=
  match collection with
  | none => dflt
  | some c => if c = "" then dflt else c

/-- One loop step of `add_documents`:
`self._collections[coll_name][doc.id] = doc` — a defaultdict read followed
by a dict assignment. -/
def ddSetDocC (cols : List (String × List (String × VectorDocument)))
    (coll : String) (doc : VectorDocument) :
    List (String × List (String × VectorDocument)) :=
  let (d, cols') := ddGetC cols coll
  cols'.map (fun p => if p.1 = coll then (coll, dictSet d doc.id doc) else p)

/-- `InMemoryVectorStore.add_documents`.  Note: it never consults
`_initialized`. -/
def im_add_documents (st : IMState) (documents : List VectorDocument)
    (collection : Option String) : List String × IMState :=
  let coll := getCollectionName st.defaultCollection collection
  (documents.map (·.id),
   { st with collections := documents.foldl (fun cs doc => ddSetDocC cs coll doc) st.collections })

/-- One loop step of `delete_documents`:
`if doc_id in self._collections[coll_name]: del ...` — the membership test
itself performs the defaultdict read. -/
def ddDelDocC (acc : Nat × List (String × List (String × VectorDocument)))
    (coll : String) (doc_id : String) :
    Nat × List (String × List (String × VectorDocument)) :=
  let (d, cols') := ddGetC acc.2 coll
  if (alookup doc_id d).isSome then
    (acc.1 + 1, cols'.map (fun p => if p.1 = coll then (coll, dictDel d doc_id) else p))
  else (acc.1, cols')

/-- `InMemoryVectorStore.delete_documents`.  Never consults
`_initialized`. -/
def im_delete_documents (st : IMState) (ids : List String)
    (collection : Option String) : Nat × IMState :=
  let coll := getCollectionName st.defaultCollection collection
  let r := ids.foldl (fun acc i => ddDelDocC acc coll i) (0, st.collections)
  (r.1, { st with collections := r.2 })

/-- `InMemoryVectorStore.search`:
`documents = list(self._collections[coll_name].values())` (the defaultdict
read is the C10 side effect), then the shared scan-score-sort body.
Never consults `_initialized`. -/
noncomputable def im_search (st : IMState) (query_embedding : List ℝ) (top_k : Nat)
    (collection : Option String) (filters : List (String × String)) :
    List SearchRes × IMState :=
  let coll := getCollectionName st.defaultCollection collection
  let r := ddGetC st.collections coll
  (searchDocs (r.1.map (·.2)) query_embedding top_k filters,
   { st with collections := r.2 })

/-- `InMemoryVectorStore.hybrid_search`: vector search with budget
`top_k * 2`, then truncate to `top_k`. -/
noncomputable def im_hybrid_search (st : IMState) (query : String)
    (query_embedding : List ℝ) (top_k : Nat) (collection : Option String)
    (filters : List (String × String)) (vector_weight lexical_weight : ℝ) :
    List SearchRes × IMState :=
  let r := im_search st query_embedding (top_k * 2) collection filters
  (r.1.take top_k, r.2)

/-- `InMemoryVectorStore.count_documents` (also a defaultdict read).
Never consults `_initialized`. -/
def im_count_documents (st : IMState) (collection : Option String)
    (filters : List (String × String)) : Nat × IMState :=
  let coll := getCollectionName st.defaultCollection collection
  let r := ddGetC st.collections coll
  let documents := r.1.map (·.2)
  (if filters.isEmpty then documents.length
   else (documents.filter (fun d => matchesFilters d filters)).length,
   { st with collections := r.2 })

/-- `InMemoryVectorStore.delete_collection`: a plain `in` test (no
defaultdict creation), then `del`. -/
def im_delete_collection (st : IMState) (collection : String) : IMState :=
  if (alookup collection st.collections).isSome then
    { st with collections := dictDel st.collections collection }
  else st

/-- `InMemoryVectorStore.collection_exists`: a plain `in` test. -/
def im_collection_exists (st : IMState) (collection : String) : Bool :=
  (alookup collection st.collections).isSome

/-! ### The remote (Qdrant) backend, `src/core/qdrant_store.py`

`self.client` is `None` until `initialize()`; every store operation
guards on it.  The remote calls themselves are oracle fields (an `error`
outcome models Qdrant's `UnexpectedResponse`). -/

/-- A scored point returned by the Qdrant client (`models.ScoredPoint`). -/
structure ScoredPoint where
  id : String
  score : ℝ
  payload : List (String × String)

/-- The remote Qdrant client as an oracle of the calls the store makes. -/
structure QdrantClient where
  upsertOutcome : Except String Unit := .ok ()
  deleteOutcome : Except String Unit := .ok ()
  searchResults : Except String (List ScoredPoint) := .ok []
  countResult : Except String Nat := .ok 0
  deleteCollectionOutcome : Except String Unit := .ok ()
  collectionExistsResult : Bool := false

/-- `_to_search_result`: `content = payload.pop("content", None)`; mutating
`pop` leaves `metadata` and `payload` as the same popped dict. -/
def to_search_result (sp : ScoredPoint) : SearchRes :=
  let content := alookup "content" sp.payload
  let metadata := dictDel sp.payload "content"
  { id := sp.id, score := sp.score, content := content,
    metadata := metadata, payload := some metadata }

/-- `QdrantVectorStore.add_documents`:
`if not self.client: raise RuntimeError("VectorStore not initialized")`,
then a remote upsert and the document ids. -/
def qdrant_add_documents (client : Option QdrantClient)
    (documents : List VectorDocument) (collection : Option String) :
    Except String (List String) :=
  match client with
  | none => .error "VectorStore not initialized"
  | some c =>
    match c.upsertOutcome with
    | .error e => .error e
    | .ok _ => .ok (documents.map (·.id))

/-- `QdrantVectorStore.delete_documents`: guarded; returns `len(ids)`. -/
def qdrant_delete_documents (client : Option QdrantClient) (ids : List String)
    (collection : Option String) : Except String Nat :=
  match client with
  | none => .error "VectorStore not initialized"
  | some c =>
    match c.deleteOutcome with
    | .error e => .error e
    | .ok _ => .ok ids.length

/-- `QdrantVectorStore.search`: guarded; remote results translated through
`_to_search_result`. -/
def qdrant_search (client : Option QdrantClient) (query_embedding : List ℝ)
    (top_k : Nat) (collection : Option String) : Except String (List SearchRes) :=
  match client with
  | none => .error "VectorStore not initialized"
  | some c =>
    match c.searchResults with
    | .error e => .error e
    | .ok rs => .ok (rs.map to_search_result)

/-- `QdrantVectorStore.hybrid_search`: guarded; an `UnexpectedResponse`
from the remote search is caught and yields the empty result list. -/
def qdrant_hybrid_search (client : Option QdrantClient) (query : String)
    (query_embedding : List ℝ) (top_k : Nat) (collection : Option String) :
    Except String (List SearchRes) :=
  match client with
  | none => .error "VectorStore not initialized"
  | some c =>
    match c.searchResults with
    | .error _ => .ok []
    | .ok rs => .ok (rs.map to_search_result)

/-- `QdrantVectorStore.count_documents`: guarded. -/
def qdrant_count_documents (client : Option QdrantClient)
    (collection : Option String) : Except String Nat :=
  match client with
  | none => .error "VectorStore not initialized"
  | some c => c.countResult

/-- `QdrantVectorStore.delete_collection`: guarded; an
`UnexpectedResponse` from the remote delete is swallowed. -/
def qdrant_delete_collection (client : Option QdrantClient) (collection : String) :
    Except String Unit :=
  match client with
  | none => .error "VectorStore not initialized"
  | some c =>
    match c.deleteCollectionOutcome with
    | .error _ => .ok ()
    | .ok _ => .ok ()

/-- `QdrantVectorStore.collection_exists`: returns `False` (not an error)
without a client. -/
def qdrant_collection_exists (client : Option QdrantClient) (collection : String) :
    Except String Bool :=
  match client with
  | none => .ok false
  | some c => .ok c.collectionExistsResult

/-! ### C8: cosine similarity at zero norm -/

/-- **C8.**  Whenever either operand has zero Euclidean norm, the cosine
similarity shared by the in-memory and file-backed stores returns exactly
0.0 — the guard fires before the division, so the divisor
`norm1 * norm2` is never used when it is zero. -/
theorem claim8_cosine_zero_norm (v1 v2 : List ℝ)
    (h : normL v1 = 0 ∨ normL v2 = 0) : cosine_similarity v1 v2 = 0 := by
  simp only [cosine_similarity]
  rw [if_pos h]

/-- **C8 witness.**  The zero vector against `[1, 2]` scores exactly 0. -/
theorem claim8_witness : cosine_similarity [0, 0] [1, 2] = 0 :=
  claim8_cosine_zero_norm [0, 0] [1, 2] (Or.inl (by simp [normL, dotL]))

/-! ### C7: hybrid search is sorted and bounded -/

/-- The `sort(key=..., reverse=True)[:top_k]` pipeline mapped into
results yields scores sorted non-increasingly. -/
theorem take_sorted_scores (l : List (VectorDocument × ℝ)) (n : Nat) :
    ((((List.insertionSort scoreGe l).take n).map toSearchRes).map (·.score)).Sorted (· ≥ ·) := by
  have hs : (List.insertionSort scoreGe l).Pairwise scoreGe :=
    List.sorted_insertionSort scoreGe l
  have ht : ((List.insertionSort scoreGe l).take n).Pairwise scoreGe :=
    List.Pairwise.sublist (List.take_sublist _ _) hs
  rw [List.map_map]
  exact ht.map _ (fun a b h => h)

/-- The shared search body returns scores sorted non-increasingly, at most
`top_k` of them. -/
theorem searchDocs_sorted (docs : List VectorDocument) (emb : List ℝ) (top_k : Nat)
    (filters : List (String × String)) :
    ((searchDocs docs emb top_k filters).map (·.score)).Sorted (· ≥ ·) ∧
    (searchDocs docs emb top_k filters).length ≤ top_k := by
  simp only [searchDocs]
  split
  · simp
  · exact ⟨take_sorted_scores _ _,
      by rw [List.length_map, List.length_take]; exact min_le_left _ _⟩

/-- **C7.**  For every document set, query, embedding, weights and
`top_k`: both local backends' `hybrid_search` return a list that is
non-increasing in the result score and no longer than `top_k`. -/
theorem claim7_hybrid_sorted (docs : List VectorDocument) (query : String) (emb : List ℝ)
    (top_k : Nat) (filters : List (String × String)) (vw lw : ℝ)
    (st : IMState) (collection : Option String) :
    (((fs_hybrid_search docs query emb top_k filters vw lw).map (·.score)).Sorted (· ≥ ·) ∧
      (fs_hybrid_search docs query emb top_k filters vw lw).length ≤ top_k) ∧
    (((im_hybrid_search st query emb top_k collection filters vw lw).1.map (·.score)).Sorted
        (· ≥ ·) ∧
      (im_hybrid_search st query emb top_k collection filters vw lw).1.length ≤ top_k) := by
  constructor
  · simp only [fs_hybrid_search]
    split
    · simp
    · exact ⟨take_sorted_scores _ _,
        by rw [List.length_map, List.length_take]; exact min_le_left _ _⟩
  · have hsearch := searchDocs_sorted
      (((ddGetC st.collections
          (getCollectionName st.defaultCollection collection)).1).map (·.2))
      emb (top_k * 2) filters
    constructor
    · simp only [im_hybrid_search, im_search]
      rw [List.map_take]
      exact List.Pairwise.sublist (List.take_sublist _ _) hsearch.1
    · simp only [im_hybrid_search, im_search]
      rw [List.length_take]
      exact min_le_left _ _

/-! ### C6: which backends guard on initialization -/

/-- **C6 (amended).**  Only the remote (Qdrant) variant guards its store
operations: with no client (`initialize()` not run), all six operations
fail with the not-initialized error.  The in-memory variant never consults
its `_initialized` flag: its operations behave identically whatever the
flag's value (and so succeed before `initialize()` — see the
counterexample; the file-backed variant likewise has no guard). -/
theorem claim6_qdrant_guard (documents : List VectorDocument) (ids : List String)
    (collection : Option String) (name : String) (emb : List ℝ) (top_k : Nat)
    (query : String) (cols : List (String × List (String × VectorDocument)))
    (dflt : String) (b : Bool) :
    (qdrant_add_documents none documents collection = .error "VectorStore not initialized" ∧
     qdrant_delete_documents none ids collection = .error "VectorStore not initialized" ∧
     qdrant_search none emb top_k collection = .error "VectorStore not initialized" ∧
     qdrant_hybrid_search none query emb top_k collection
       = .error "VectorStore not initialized" ∧
     qdrant_count_documents none collection = .error "VectorStore not initialized" ∧
     qdrant_delete_collection none name = .error "VectorStore not initialized") ∧
    im_add_documents ⟨cols, b, dflt⟩ documents collection
       = ((im_add_documents ⟨cols, true, dflt⟩ documents collection).1,
          ⟨(im_add_documents ⟨cols, true, dflt⟩ documents collection).2.collections,
           b, dflt⟩) :=
  ⟨⟨rfl, rfl, rfl, rfl, rfl, rfl⟩, rfl⟩

/-- **C6 counterexample.**  `add_documents` on a NOT-initialized in-memory
store succeeds — it returns the id and stores the document (the collection
then exists) instead of failing with a not-initialized error. -/
theorem claim6_counterexample :
    im_add_documents ⟨[], false, "default"⟩
        [{ id := "d1", embedding := [], content := "c", metadata := [] }] none
      = (["d1"],
         ⟨[("default",
            [("d1", { id := "d1", embedding := [], content := "c", metadata := [] })])],
          false, "default"⟩) ∧
    im_collection_exists
      (im_add_documents ⟨[], false, "default"⟩
        [{ id := "d1", embedding := [], content := "c", metadata := [] }] none).2
      "default" = true :=
  ⟨rfl, rfl⟩

/-! ### C10: the defaultdict side effect of read-only operations -/

/-- Appending a fresh key to an association list makes it found. -/
theorem alookup_append_of_none {α : Type} {m : List (String × α)} {k : String} {v : α}
    (h : alookup k m = none) : alookup k (m ++ [(k, v)]) = some v := by
  induction m with
  | nil => simp [alookup]
  | cons p ps ih =>
    by_cases hp : p.1 = k
    · rw [alookup, if_pos hp] at h
      cases h
    · rw [alookup, if_neg hp] at h
      rw [List.cons_append, alookup, if_neg hp]
      exact ih h

/-- **C10.**  On the in-memory store, `search` and `count_documents` with a
collection name that was never written to return the empty list / zero,
but as a side effect create the collection: `collection_exists` flips from
`False` to `True` though no document was ever added. -/
theorem claim10_collection_creation (st : IMState) (name : String) (emb : List ℝ)
    (top_k : Nat) (hne : name ≠ "") (h : alookup name st.collections = none) :
    im_collection_exists st name = false ∧
    im_search st emb top_k (some name) []
      = ([], { st with collections := st.collections ++ [(name, [])] }) ∧
    im_collection_exists (im_search st emb top_k (some name) []).2 name = true ∧
    im_count_documents st (some name) []
      = (0, { st with collections := st.collections ++ [(name, [])] }) := by
  have hget : ddGetC st.collections (getCollectionName st.defaultCollection (some name))
      = ([], st.collections ++ [(name, [])]) := by
    simp only [getCollectionName, if_neg hne, ddGetC, h]
  have hsearch : im_search st emb top_k (some name) []
      = ([], { st with collections := st.collections ++ [(name, [])] }) := by
    simp only [im_search, hget, searchDocs, applyFilters]
    simp
  refine ⟨?_, hsearch, ?_, ?_⟩
  · simp [im_collection_exists, h]
  · rw [hsearch]
    simp [im_collection_exists, alookup_append_of_none h]
  · simp only [im_count_documents, hget]
    simp

/-- **C10 witness.**  On an empty store, searching and counting the fresh
collection `"c1"` returns nothing but creates it. -/
theorem claim10_witness :
    im_collection_exists ⟨[], false, "default"⟩ "c1" = false ∧
    im_search ⟨[], false, "default"⟩ [] 3 (some "c1") []
      = ([], { collections := [("c1", [])], initialized := false,
               defaultCollection := "default" }) ∧
    im_collection_exists
      (im_search ⟨[], false, "default"⟩ [] 3 (some "c1") []).2 "c1" = true ∧
    im_count_documents ⟨[], false, "default"⟩ (some "c1") []
      = (0, { collections := [("c1", [])], initialized := false,
              defaultCollection := "default" }) :=
  claim10_collection_creation ⟨[], false, "default"⟩ "c1" [] 3 (by decide) rfl

end LawSearch
